import Mathlib

/-!
Shallow embedding of the `humble_orm` SQL string-building library.

Rust strings are modelled as `List Char`.  Every definition below whose doc
comment names a Rust item transliterates that item from the repository's
source (src/lib.rs, src/select.rs, src/sql_column.rs, src/sql_table.rs,
src/sql_value.rs); definitions marked as spec-side formalize the wording of
the specification for comparison with the code.
-/

namespace HumbleOrm

/-- Shorthand turning a Lean string literal into the `List Char` model of a
Rust string. -/
def str (s : String) : List Char := s.toList

/-- Decimal digit character (value `n` must be below 10), as produced by the
Rust `Display` implementation of the unsigned integer types. -/
def digitChar (n : Nat) : Char := Char.ofNat (48 + n)

/-- Fuel-driven decimal printer; with fuel above `n` it renders the decimal
digits of `n` most significant first, exactly like Rust `u32::to_string`. -/
def natDecAux : Nat → Nat → List Char
  | 0, _ => []
  | fuel + 1, n =>
    if n < 10 then [digitChar n]
    else natDecAux fuel (n / 10) ++ [digitChar (n % 10)]

/-- Decimal rendering of a non-negative integer (Rust `Display` for `u8`,
`u32`, and the digit part of `i32`). -/
def natDec (n : Nat) : List Char := natDecAux (n + 1) n

/-- Lowercase hexadecimal digit character (Rust `LowerHex`), for values
below 16. -/
def hexDigitChar (n : Nat) : Char :=
  if n < 10 then Char.ofNat (48 + n) else Char.ofNat (87 + n)

/-- Fuel-driven lowercase hexadecimal printer, mirroring the `{:x}` rendering
used inside Rust `\u` escapes. -/
def natHexAux : Nat → Nat → List Char
  | 0, _ => []
  | fuel + 1, n =>
    if n < 16 then [hexDigitChar n]
    else natHexAux fuel (n / 16) ++ [hexDigitChar (n % 16)]

/-- Lowercase hexadecimal rendering of a non-negative integer. -/
def natHex (n : Nat) : List Char := natHexAux (n + 1) n

/-- One character of Rust string `Debug` escaping (`char::escape_debug` as
invoked by `format!("{s:?}")` in sql_value.rs, with double quotes escaped and
single quotes left alone).  The `plain` parameter abstracts the library's
Unicode printability test (printable and not grapheme-extended): a character
that is neither special-cased nor `plain` is emitted as a `\u` escape with
lowercase hex digits of its scalar value between brace delimiters. -/
def escDebugChar (plain : Char → Bool) (c : Char) : List Char :=
  if c = Char.ofNat 0 then ['\\', '0']
  else if c = '\t' then ['\\', 't']
  else if c = '\r' then ['\\', 'r']
  else if c = '\n' then ['\\', 'n']
  else if c = '\\' then ['\\', '\\']
  else if c = '"' then ['\\', '"']
  else if plain c then [c]
  else '\\' :: 'u' :: Char.ofNat 123 :: (natHex c.toNat ++ [Char.ofNat 125])

/-- Rust `format!("{s:?}")` on a string slice: an opening quote, every
character escaped by `escDebugChar`, a closing quote. -/
def fmtDebugStr (plain : Char → Bool) (s : List Char) : List Char :=
  '"' :: (s.flatMap (escDebugChar plain) ++ ['"'])

/-- `impl SqlValue for String` / `impl SqlValue for &str` from sql_value.rs:
`to_sql` is exactly the `Debug` rendering of the string. -/
def stringToSql (plain : Char → Bool) (s : List Char) : List Char :=
  fmtDebugStr plain s

/-- The ASCII fragment of Rust's printable-character test: on ASCII input it
coincides with the predicate the standard library uses inside
`escape_debug`. -/
def asciiPlain (c : Char) : Bool := 32 ≤ c.toNat && c.toNat ≤ 126

/-- Spec-side: numeric value of one hexadecimal digit character, if any. -/
def hexDigitVal (c : Char) : Option Nat :=
  if '0' ≤ c ∧ c ≤ '9' then some (c.toNat - 48)
  else if 'a' ≤ c ∧ c ≤ 'f' then some (c.toNat - 87)
  else none

/-- Spec-side: reads the hexadecimal digits of a `\u` escape up to the
closing brace delimiter, returning the accumulated value and the rest of the
input. -/
def readHex : List Char → Nat → Option (Nat × List Char)
  | [], _ => none
  | c :: rest, acc =>
    if c = Char.ofNat 125 then some (acc, rest)
    else
      match hexDigitVal c with
      | some d => readHex rest (16 * acc + d)
      | none => none

/-- Spec-side: decodes one escaped or plain character of a quoted literal
body, returning the character and the remaining input. -/
def unescapeStep : List Char → Option (Char × List Char)
  | [] => none
  | c :: rest =>
    if c = '\\' then
      match rest with
      | [] => none
      | e :: rest2 =>
        if e = '0' then some (Char.ofNat 0, rest2)
        else if e = 't' then some ('\t', rest2)
        else if e = 'r' then some ('\r', rest2)
        else if e = 'n' then some ('\n', rest2)
        else if e = '\\' then some ('\\', rest2)
        else if e = '"' then some ('"', rest2)
        else if e = 'u' then
          match rest2 with
          | b :: rest3 =>
            if b = Char.ofNat 123 then
              match readHex rest3 0 with
              | some (n, rest4) => some (Char.ofNat n, rest4)
              | none => none
            else none
          | [] => none
        else none
    else some (c, rest)

theorem readHex_length :
    ∀ (l : List Char) (a n : Nat) (r : List Char),
      readHex l a = some (n, r) → r.length < l.length := by
  intro l
  induction l with
  | nil => intro a n r h; simp [readHex] at h
  | cons c rest ih =>
    intro a n r h
    simp only [readHex] at h
    by_cases hc : c = Char.ofNat 125
    · simp [hc] at h
      rw [← h.2]
      simp
    · simp [hc] at h
      cases hv : hexDigitVal c with
      | none => rw [hv] at h; simp at h
      | some d =>
        rw [hv] at h
        simp at h
        have := ih _ _ _ h
        simp
        omega

theorem unescapeStep_length :
    ∀ (l : List Char) (c : Char) (r : List Char),
      unescapeStep l = some (c, r) → r.length < l.length := by
  intro l
  match l with
  | [] => intro c r h; simp [unescapeStep] at h
  | a :: rest =>
    intro c r h
    simp only [unescapeStep] at h
    by_cases ha : a = '\\'
    · simp [ha] at h
      match rest with
      | [] => simp at h
      | e :: rest2 =>
        simp at h
        by_cases h0 : e = '0'
        · simp [h0] at h; simp [h.2.symm]; omega
        · by_cases ht : e = 't'
          · simp [h0, ht] at h; simp [h.2.symm]; omega
          · by_cases hr : e = 'r'
            · simp [h0, ht, hr] at h; simp [h.2.symm]; omega
            · by_cases hn : e = 'n'
              · simp [h0, ht, hr, hn] at h; simp [h.2.symm]; omega
              · by_cases hb : e = '\\'
                · simp [h0, ht, hr, hn, hb] at h; simp [h.2.symm]; omega
                · by_cases hq : e = '"'
                  · simp [h0, ht, hr, hn, hb, hq] at h; simp [h.2.symm]; omega
                  · by_cases hu : e = 'u'
                    · simp [h0, ht, hr, hn, hb, hq, hu] at h
                      match rest2 with
                      | [] => simp at h
                      | b :: rest3 =>
                        simp at h
                        by_cases hbr : b = Char.ofNat 123
                        · simp [hbr] at h
                          cases hrh : readHex rest3 0 with
                          | none => rw [hrh] at h; simp at h
                          | some p =>
                            rw [hrh] at h
                            simp at h
                            have := readHex_length _ _ _ _ hrh
                            rw [← h.2]
                            simp
                            omega
                        · simp [hbr] at h
                    · simp [h0, ht, hr, hn, hb, hq, hu] at h
    · simp [ha] at h
      rw [← h.2]
      simp

/-- Spec-side: parses the body of a quoted literal (the text after the
opening quote), returning the decoded characters together with whatever
input remains after the closing quote. -/
def parseBody (l : List Char) : Option (List Char × List Char) :=
  match l with
  | [] => none
  | c :: rest =>
    if c = '"' then some ([], rest)
    else
      match h : unescapeStep (c :: rest) with
      | some (d, rest2) =>
        match parseBody rest2 with
        | some (s, tail) => some (d :: s, tail)
        | none => none
      | none => none
termination_by l.length
decreasing_by
  exact unescapeStep_length _ _ _ h

/-- Spec-side: parses a full quoted literal of the form the Value Codec
emits; the result is the decoded string and the unconsumed remainder. -/
def parseLiteral (l : List Char) : Option (List Char × List Char) :=
  match l with
  | c :: rest => if c = '"' then parseBody rest else none
  | [] => none

/-- The column metadata struct of sql_column.rs.  `rawName` and
`rawTableName` model the private fields `name` and `table_name`, which hold
pre-escaped identifiers such as `"id"` (quotes included). -/
structure SqlColumn where
  rawName : List Char
  rawTableName : List Char
  isPrimary : Bool
deriving DecidableEq

/-- `trim_quotes` from sql_column.rs.  The source works on the byte slice:
when the string has length at least 2 and its first and last byte are the
same quote character (double or single), it rebuilds the slice with
`from_raw_parts(ptr.add(1), len - 1)`, i.e. the bytes at positions
1 to len-1 inclusive; otherwise the string is returned unchanged. -/
def trim_quotes (s : List Char) : List Char :=
  match s with
  | [] => []
  | [c] => [c]
  | c :: c2 :: rest =>
    let lastc := (c2 :: rest).getLast (List.cons_ne_nil c2 rest)
    if (c = '"' ∧ lastc = '"') ∨ (c = Char.ofNat 39 ∧ lastc = Char.ofNat 39) then
      c2 :: rest
    else c :: c2 :: rest

/-- `SqlColumn::name()`: the stored name passed through `trim_quotes`. -/
def SqlColumn.name (c : SqlColumn) : List Char := trim_quotes c.rawName

/-- `SqlColumn::table_name()`: the stored table name passed through
`trim_quotes`. -/
def SqlColumn.table_name (c : SqlColumn) : List Char := trim_quotes c.rawTableName

/-- The `Display` impl for `SqlColumn`: `"{table_name}.{name}"` over the raw
stored (pre-escaped) fields. -/
def SqlColumn.display (c : SqlColumn) : List Char :=
  c.rawTableName ++ ('.' :: c.rawName)

/-- `SqlColumn::count_as`: `format!("COUNT({self}) AS {alias:?}")` — the
alias goes through the Debug (escaping) formatter. -/
def SqlColumn.count_as (plain : Char → Bool) (c : SqlColumn) (aliasTxt : List Char) : List Char :=
  str "COUNT(" ++ (c.display ++ (str ") AS " ++ fmtDebugStr plain aliasTxt))

/-- `SqlColumn::sum_as`: `format!("SUM({self}) AS {alias:?}")`. -/
def SqlColumn.sum_as (plain : Char → Bool) (c : SqlColumn) (aliasTxt : List Char) : List Char :=
  str "SUM(" ++ (c.display ++ (str ") AS " ++ fmtDebugStr plain aliasTxt))

/-- `SqlColumn::avg_as`: `format!("AVG({self}) AS {alias}")` — the alias is
interpolated verbatim (no `:?`). -/
def SqlColumn.avg_as (c : SqlColumn) (aliasTxt : List Char) : List Char :=
  str "AVG(" ++ (c.display ++ (str ") AS " ++ aliasTxt))

/-- `SqlColumn::min_as`: `format!("MIN({self}) AS {alias}")` — verbatim
alias. -/
def SqlColumn.min_as (c : SqlColumn) (aliasTxt : List Char) : List Char :=
  str "MIN(" ++ (c.display ++ (str ") AS " ++ aliasTxt))

/-- `SqlColumn::max_as`: `format!("MAX({self}) AS {alias}")` — verbatim
alias. -/
def SqlColumn.max_as (c : SqlColumn) (aliasTxt : List Char) : List Char :=
  str "MAX(" ++ (c.display ++ (str ") AS " ++ aliasTxt))

/-- `SqlColumn::in_list`: the values are rendered by their `SqlValue`
implementation (the `toSql` parameter models the trait method), collected,
and comma-joined; an empty list degenerates to the literal `false`. -/
def SqlColumn.in_list {α : Type} (toSql : α → List Char) (c : SqlColumn)
    (values : List α) : List Char :=
  let tmp := values.map toSql
  if tmp.isEmpty then str "false"
  else c.display ++ (str " IN (" ++ (List.intercalate (str ",") tmp ++ [')']))

/-- `SqlColumn::not_in_list`: as `in_list` with `NOT IN`, degenerating to the
literal `true` on an empty list. -/
def SqlColumn.not_in_list {α : Type} (toSql : α → List Char) (c : SqlColumn)
    (values : List α) : List Char :=
  let tmp := values.map toSql
  if tmp.isEmpty then str "true"
  else c.display ++ (str " NOT IN (" ++ (List.intercalate (str ",") tmp ++ [')']))

/-- `join_and` from lib.rs: each fragment is wrapped in parentheses and the
results are joined with `" AND "`. -/
def join_and (cond : List (List Char)) : List Char :=
  List.intercalate (str " AND ") (cond.map (fun x => '(' :: (x ++ [')'])))

/-- `join_or` from lib.rs: each fragment is wrapped in parentheses and the
results are joined with `" OR "`. -/
def join_or (cond : List (List Char)) : List Char :=
  List.intercalate (str " OR ") (cond.map (fun x => '(' :: (x ++ [')'])))

/-- `format_cond` from select.rs (same body as `join_and`). -/
def format_cond (cond : List (List Char)) : List Char :=
  List.intercalate (str " AND ") (cond.map (fun x => '(' :: (x ++ [')'])))

/-- `SqlTable::has_column` from sql_table.rs: `find` over the column list,
comparing the trimmed `name()` accessor against the argument. -/
def has_column (cols : List SqlColumn) (n : List Char) : Bool :=
  (cols.find? (fun col => col.name == n)).isSome

/-- `SqlTable::column_index` is `enumerate().find(..).map(i)`: a first-match
scan carrying a running index, modelled by this helper. -/
def column_index_from (cols : List SqlColumn) (n : List Char) (i : Nat) : Option Nat :=
  match cols with
  | [] => none
  | c :: rest => if c.name = n then some i else column_index_from rest n (i + 1)

/-- `SqlTable::column_index` from sql_table.rs. -/
def column_index (cols : List SqlColumn) (n : List Char) : Option Nat :=
  column_index_from cols n 0

/-- `SqlTable::column_name_at` from sql_table.rs:
`COLUMNS.get(index).map(|col| col.name())`. -/
def column_name_at (cols : List SqlColumn) (index : Nat) : Option (List Char) :=
  (cols.get? index).map SqlColumn.name

/-- The `Select` accumulator struct from select.rs (`u32` limit and offset
modelled as `Nat`, since they are only ever rendered in decimal). -/
structure Select where
  columns : List Char
  table : List Char
  cond : List (List Char)
  group_by : List Char
  having : List (List Char)
  order_by : List Char
  limit : Option Nat
  offset : Option Nat
deriving DecidableEq

/-- `Select::new`: all clause accumulators empty. -/
def Select.new : Select := ⟨[], [], [], [], [], [], none, none⟩

/-- `Select::push_column`: a comma separator when the accumulator is already
non-empty, then the column text. -/
def Select.push_column (st : Select) (col : List Char) : Select :=
  ⟨(if st.columns.isEmpty then st.columns else st.columns ++ [',']) ++ col,
   st.table, st.cond, st.group_by, st.having, st.order_by, st.limit, st.offset⟩

/-- `Select::set_table`.  The `dbg` flag models `cfg(debug_assertions)`: the
table-already-set check is compiled in only when it is true.  A panic is
modelled as `Except.error` carrying the panic message; on success the stored
table is replaced by `T::table_name()` (the `tname` argument). -/
def Select.set_table (dbg : Bool) (st : Select) (tname : List Char) :
    Except (List Char) Select :=
  if dbg && !st.table.isEmpty then
    Except.error (str "table already exists, use join instead")
  else
    Except.ok ⟨st.columns, tname, st.cond, st.group_by, st.having, st.order_by,
      st.limit, st.offset⟩

/-- `Select::inner_join` (also reached through `join` and the `with_`
variants): the join-to-nothing check is compiled in only under
`debug_assertions` (`dbg`); on success the join text is appended to the
from-clause, the on-condition rendered by `format_cond`. -/
def Select.inner_join (dbg : Bool) (st : Select) (tname : List Char)
    (onCond : List (List Char)) : Except (List Char) Select :=
  if dbg && st.table.isEmpty then
    Except.error (str "join to nothing, use with_table or set_table first")
  else
    Except.ok ⟨st.columns,
      st.table ++ (str " INNER JOIN " ++ (tname ++ (str " ON " ++ format_cond onCond))),
      st.cond, st.group_by, st.having, st.order_by, st.limit, st.offset⟩

/-- `Select::left_join`: as `inner_join` with `LEFT JOIN` text. -/
def Select.left_join (dbg : Bool) (st : Select) (tname : List Char)
    (onCond : List (List Char)) : Except (List Char) Select :=
  if dbg && st.table.isEmpty then
    Except.error (str "join to nothing, use with_table or set_table first")
  else
    Except.ok ⟨st.columns,
      st.table ++ (str " LEFT JOIN " ++ (tname ++ (str " ON " ++ format_cond onCond))),
      st.cond, st.group_by, st.having, st.order_by, st.limit, st.offset⟩

/-- `Select::push_where_cond`: push onto the condition vector. -/
def Select.push_where_cond (st : Select) (c : List Char) : Select :=
  ⟨st.columns, st.table, st.cond ++ [c], st.group_by, st.having, st.order_by,
   st.limit, st.offset⟩

/-- `Select::push_having`: push onto the having vector. -/
def Select.push_having (st : Select) (c : List Char) : Select :=
  ⟨st.columns, st.table, st.cond, st.group_by, st.having ++ [c], st.order_by,
   st.limit, st.offset⟩

/-- `Select::set_limit`: store the limit. -/
def Select.set_limit (st : Select) (l : Nat) : Select :=
  ⟨st.columns, st.table, st.cond, st.group_by, st.having, st.order_by,
   some l, st.offset⟩

/-- `Select::set_limit_offset`: store the offset (the limit is untouched). -/
def Select.set_limit_offset (st : Select) (o : Nat) : Select :=
  ⟨st.columns, st.table, st.cond, st.group_by, st.having, st.order_by,
   st.limit, some o⟩

/-- `Select::build` from select.rs, transliterating the imperative string
assembly: `SELECT`/`FROM` first, then each optional clause appended only
when its accumulator is non-empty, the `LIMIT` text only when a limit is
set, and the `OFFSET` text only inside the limit branch. -/
def Select.build (st : Select) : List Char :=
  let sql := str "SELECT " ++ (st.columns ++ (str " FROM " ++ st.table))
  let sql := if st.cond.isEmpty then sql else
    sql ++ (str " WHERE " ++ format_cond st.cond)
  let sql := if st.group_by.isEmpty then sql else
    sql ++ (str " GROUP BY " ++ st.group_by)
  let sql := if st.having.isEmpty then sql else
    sql ++ (str " HAVING " ++ format_cond st.having)
  let sql := if st.order_by.isEmpty then sql else
    sql ++ (str " ORDER BY " ++ st.order_by)
  match st.limit with
  | none => sql
  | some l =>
    let sql := sql ++ (str " LIMIT " ++ natDec l)
    match st.offset with
    | none => sql
    | some o => sql ++ (str " OFFSET " ++ natDec o)

/-- The fields of `time::Date` read by its `to_sql` impl (`year` is an `i32`;
the `time` crate represents years -9999 through 9999 by default). -/
structure RDate where
  year : Int
  month : Nat
  day : Nat
deriving DecidableEq

/-- The representable range of a `time::Date` (over-approximating the
days-in-month rule, which only strengthens theorems assuming it). -/
def RDate.valid (d : RDate) : Prop :=
  -9999 ≤ d.year ∧ d.year ≤ 9999 ∧ 1 ≤ d.month ∧ d.month ≤ 12 ∧
    1 ≤ d.day ∧ d.day ≤ 31

/-- The fields of `time::Time` read by its `to_sql` impl. -/
structure RTime where
  hour : Nat
  minute : Nat
  second : Nat
deriving DecidableEq

/-- The representable range of a `time::Time` (whole-second part). -/
def RTime.valid (t : RTime) : Prop :=
  t.hour ≤ 23 ∧ t.minute ≤ 59 ∧ t.second ≤ 59

/-- `time::PrimitiveDateTime` is a calendar date paired with a clock time. -/
structure RTimestamp where
  date : RDate
  time : RTime
deriving DecidableEq

/-- Zero-padding to width `w`, as Rust `{:0w}` formatting of a non-negative
number. -/
def padZeros (w : Nat) (s : List Char) : List Char :=
  List.replicate (w - s.length) '0' ++ s

/-- Rust `{y:04}` formatting of an `i32`: sign-aware zero padding — for a
negative value the minus sign is emitted first and the digits are padded so
the sign and digits together reach width 4. -/
def fmtI04 (y : Int) : List Char :=
  if y < 0 then '-' :: padZeros 3 (natDec y.natAbs) else padZeros 4 (natDec y.natAbs)

/-- Rust `{n:02}` formatting of a `u8`. -/
def fmtN02 (n : Nat) : List Char := padZeros 2 (natDec n)

/-- `impl SqlValue for time::Date` from sql_value.rs:
`format!("\"{y:04}-{m:02}-{d:02}\"")`. -/
def RDate.to_sql (d : RDate) : List Char :=
  '"' :: fmtI04 d.year ++ '-' :: fmtN02 d.month ++ '-' :: fmtN02 d.day ++ ['"']

/-- `impl SqlValue for time::Time` from sql_value.rs:
`format!("\"{h:02}:{m:02}:{s:02}\"")`. -/
def RTime.to_sql (t : RTime) : List Char :=
  '"' :: fmtN02 t.hour ++ ':' :: fmtN02 t.minute ++ ':' :: fmtN02 t.second ++ ['"']

/-- `impl SqlValue for time::PrimitiveDateTime` from sql_value.rs:
`format!("\"{y:04}-{m:02}-{d:02}T{h:02}:{mm:02}:{s:02}\"")`. -/
def RTimestamp.to_sql (t : RTimestamp) : List Char :=
  '"' :: fmtI04 t.date.year ++ '-' :: fmtN02 t.date.month ++ '-' ::
    fmtN02 t.date.day ++ 'T' :: fmtN02 t.time.hour ++ ':' ::
      fmtN02 t.time.minute ++ ':' :: fmtN02 t.time.second ++ ['"']

/-- Spec-side: the claimed date layout — a quoted literal whose year field is
exactly four decimal digits and whose month and day fields are exactly two. -/
def isClaimedDateLit : List Char → Bool
  | ['"', y1, y2, y3, y4, '-', m1, m2, '-', d1, d2, '"'] =>
    [y1, y2, y3, y4, m1, m2, d1, d2].all Char.isDigit
  | _ => false

/-- Spec-side: the claimed time layout `"HH:MM:SS"`, all two-digit fields. -/
def isClaimedTimeLit : List Char → Bool
  | ['"', h1, h2, ':', m1, m2, ':', s1, s2, '"'] =>
    [h1, h2, m1, m2, s1, s2].all Char.isDigit
  | _ => false

/-- Spec-side: the claimed timestamp layout `"YYYY-MM-DDTHH:MM:SS"`. -/
def isClaimedTimestampLit : List Char → Bool
  | ['"', y1, y2, y3, y4, '-', mo1, mo2, '-', d1, d2, 'T',
     h1, h2, ':', mi1, mi2, ':', s1, s2, '"'] =>
    [y1, y2, y3, y4, mo1, mo2, d1, d2, h1, h2, mi1, mi2, s1, s2].all Char.isDigit
  | _ => false

/-- Spec-side: the accumulator with its pagination fields cleared, used to
state which part of the rendered text the limit and offset contribute. -/
def Select.clearPagination (st : Select) : Select :=
  ⟨st.columns, st.table, st.cond, st.group_by, st.having, st.order_by, none, none⟩

theorem intercalate_cons (sep x : List Char) (l : List (List Char)) :
    List.intercalate sep (x :: l) =
      x ++ (if l.isEmpty then [] else sep ++ List.intercalate sep l) := by
  cases l with
  | nil => simp [List.intercalate]
  | cons y t => simp [List.intercalate, List.intersperse_cons_cons]

/-- C1: the claim says `name()`/`table_name()` strip BOTH the leading and the
trailing quote of a quoted identifier.  The code's `trim_quotes` rebuilds the
byte slice with length `len - 1` after advancing the pointer by one, so only
the leading quote is removed: on the stored name `"id"` the accessor returns
`id"` (trailing quote kept), not `id` — contradicting the function's own
comments ("remove the second quotation mark") and breaking unquoted-name
lookups.  This theorem evaluates the accessors at that failing input. -/
theorem c1_trim_quotes_keeps_trailing_quote :
    (SqlColumn.mk (str "\"id\"") (str "\"User\"") true).name = str "id\"" ∧
    (SqlColumn.mk (str "\"id\"") (str "\"User\"") true).table_name = str "User\"" ∧
    has_column [SqlColumn.mk (str "\"id\"") (str "\"User\"") true] (str "id") = false := by
  decide

/-- C2: the claim says all five aggregate alias builders re-escape the
caller-supplied alias.  Only `count_as` and `sum_as` format the alias with
the escaping `{:?}` formatter; `avg_as`, `min_as` and `max_as` interpolate it
verbatim, as this evaluation at an alias containing a quote shows. -/
theorem c2_alias_escaping_inconsistent :
    (SqlColumn.mk (str "\"c\"") (str "\"T\"") false).avg_as (str "x\"y") =
      str "AVG(\"T\".\"c\") AS x\"y" ∧
    (SqlColumn.mk (str "\"c\"") (str "\"T\"") false).min_as (str "x\"y") =
      str "MIN(\"T\".\"c\") AS x\"y" ∧
    (SqlColumn.mk (str "\"c\"") (str "\"T\"") false).max_as (str "x\"y") =
      str "MAX(\"T\".\"c\") AS x\"y" ∧
    (SqlColumn.mk (str "\"c\"") (str "\"T\"") false).count_as asciiPlain (str "x\"y") =
      str "COUNT(\"T\".\"c\") AS \"x\\\"y\"" ∧
    (SqlColumn.mk (str "\"c\"") (str "\"T\"") false).sum_as asciiPlain (str "x\"y") =
      str "SUM(\"T\".\"c\") AS \"x\\\"y\"" := by
  decide

/-- C3 counterexample: the claim says builder misuse panics in every build
configuration.  The checks sit under `cfg(debug_assertions)`: with debug
assertions off (release), `set_table` on an accumulator whose table is
already set succeeds and silently overwrites it, and `inner_join` on an
empty accumulator succeeds and appends to the empty from-clause. -/
theorem c3_release_build_tolerates_misuse :
    Select.set_table false (Select.mk [] (str "\"A\"") [] [] [] [] none none)
        (str "\"B\"") =
      Except.ok (Select.mk [] (str "\"B\"") [] [] [] [] none none) ∧
    Select.inner_join false Select.new (str "\"B\"") [str "x"] =
      Except.ok (Select.mk [] (str " INNER JOIN \"B\" ON (x)") [] [] [] [] none none) :=
  ⟨rfl, rfl⟩

/-- C3 (amended): with debug assertions enabled, setting the base table when
one is already set, and joining (inner or left) when none is set, fail with
the respective panic message; with debug assertions disabled the checks are
compiled out and both operations succeed silently. -/
theorem c3_builder_misuse_debug_only (st : Select) (tn : List Char)
    (onc : List (List Char)) :
    (st.table.isEmpty = false →
      Select.set_table true st tn =
        Except.error (str "table already exists, use join instead")) ∧
    (st.table.isEmpty = true →
      Select.inner_join true st tn onc =
        Except.error (str "join to nothing, use with_table or set_table first")) ∧
    (st.table.isEmpty = true →
      Select.left_join true st tn onc =
        Except.error (str "join to nothing, use with_table or set_table first")) ∧
    (∃ st2, Select.set_table false st tn = Except.ok st2 ∧ st2.table = tn) ∧
    (∃ st3, Select.inner_join false st tn onc = Except.ok st3) := by
  refine ⟨?_, ?_, ?_, ?_, ?_⟩
  · intro h; simp [Select.set_table, h]
  · intro h; simp [Select.inner_join, h]
  · intro h; simp [Select.left_join, h]
  · exact ⟨⟨st.columns, tn, st.cond, st.group_by, st.having, st.order_by,
      st.limit, st.offset⟩, rfl, rfl⟩
  · exact ⟨⟨st.columns,
      st.table ++ (str " INNER JOIN " ++ (tn ++ (str " ON " ++ format_cond onc))),
      st.cond, st.group_by, st.having, st.order_by, st.limit, st.offset⟩, rfl⟩

theorem c3_builder_misuse_debug_only_witness :
    Select.set_table true (Select.mk [] (str "\"A\"") [] [] [] [] none none)
        (str "\"B\"") =
      Except.error (str "table already exists, use join instead") ∧
    Select.inner_join true Select.new (str "\"B\"") [str "x"] =
      Except.error (str "join to nothing, use with_table or set_table first") ∧
    Select.left_join true Select.new (str "\"B\"") [str "x"] =
      Except.error (str "join to nothing, use with_table or set_table first") :=
  ⟨(c3_builder_misuse_debug_only
      (Select.mk [] (str "\"A\"") [] [] [] [] none none) (str "\"B\"") []).1
        (by decide),
   (c3_builder_misuse_debug_only Select.new (str "\"B\"") [str "x"]).2.1
        (by decide),
   (c3_builder_misuse_debug_only Select.new (str "\"B\"") [str "x"]).2.2.1
        (by decide)⟩

/-- C4: `in_list` on an empty value sequence renders exactly `false` and
`not_in_list` renders exactly `true`; on a non-empty sequence they render
the column reference followed by `IN (...)` (resp. `NOT IN (...)`) with the
rendered literals comma-joined in input order. -/
theorem c4_in_list_empty_and_nonempty {α : Type} (toSql : α → List Char)
    (c : SqlColumn) (vs : List α) :
    (vs = [] → c.in_list toSql vs = str "false" ∧
      c.not_in_list toSql vs = str "true") ∧
    (vs ≠ [] →
      c.in_list toSql vs =
        c.display ++ (str " IN (" ++
          (List.intercalate (str ",") (vs.map toSql) ++ [')'])) ∧
      c.not_in_list toSql vs =
        c.display ++ (str " NOT IN (" ++
          (List.intercalate (str ",") (vs.map toSql) ++ [')']))) := by
  constructor
  · intro h; subst h; exact ⟨rfl, rfl⟩
  · intro h
    cases vs with
    | nil => exact absurd rfl h
    | cons a t => exact ⟨rfl, rfl⟩

theorem c4_in_list_empty_and_nonempty_witness :
    (([] : List (List Char)) = [] →
      (SqlColumn.mk (str "\"c\"") (str "\"T\"") false).in_list id [] = str "false" ∧
      (SqlColumn.mk (str "\"c\"") (str "\"T\"") false).not_in_list id [] = str "true") ∧
    ([str "1", str "2"] ≠ ([] : List (List Char)) ∧
      (SqlColumn.mk (str "\"c\"") (str "\"T\"") false).in_list id [str "1", str "2"] =
        str "\"T\".\"c\" IN (1,2)") :=
  ⟨fun h => (c4_in_list_empty_and_nonempty id
      (SqlColumn.mk (str "\"c\"") (str "\"T\"") false) []).1 h,
   by decide,
   by
    have := ((c4_in_list_empty_and_nonempty id
      (SqlColumn.mk (str "\"c\"") (str "\"T\"") false)
      [str "1", str "2"]).2 (by decide)).1
    rw [this]
    decide⟩

/-- C7: `join_and`/`join_or` on the empty sequence render the empty string;
on `[a]` they render `(a)`; in general each fragment is individually
parenthesized and the results are joined with `" AND "` / `" OR "` in input
order. -/
theorem c7_join_and_join_or (a b : List Char) (l : List (List Char)) :
    join_and ([] : List (List Char)) = [] ∧
    join_or ([] : List (List Char)) = [] ∧
    join_and [a] = '(' :: (a ++ [')']) ∧
    join_and [a, b] =
      ('(' :: (a ++ [')'])) ++ (str " AND " ++ ('(' :: (b ++ [')']))) ∧
    (l ≠ [] → join_and (a :: l) =
      ('(' :: (a ++ [')'])) ++ (str " AND " ++ join_and l)) ∧
    join_or [a] = '(' :: (a ++ [')']) ∧
    (l ≠ [] → join_or (a :: l) =
      ('(' :: (a ++ [')'])) ++ (str " OR " ++ join_or l)) := by
  refine ⟨rfl, rfl, ?_, ?_, ?_, ?_, ?_⟩
  · simp [join_and, intercalate_cons]
  · simp [join_and, intercalate_cons]
  · intro h
    cases l with
    | nil => exact absurd rfl h
    | cons y t => simp [join_and, intercalate_cons]
  · simp [join_or, intercalate_cons]
  · intro h
    cases l with
    | nil => exact absurd rfl h
    | cons y t => simp [join_or, intercalate_cons]

theorem c7_join_and_join_or_witness :
    ([str "b"] ≠ ([] : List (List Char))) ∧
    join_and [str "a", str "b"] = str "(a) AND (b)" :=
  ⟨by decide, by
    have := (c7_join_and_join_or (str "a") (str "b") [str "b"]).2.2.2.2.1 (by decide)
    rw [this]
    decide⟩

/-- C6: `build` assembles the clauses in the fixed order SELECT, FROM,
WHERE, GROUP BY, HAVING, ORDER BY, LIMIT, OFFSET; a clause whose accumulator
was never filled contributes no text at all, and the WHERE/HAVING condition
lists are rendered with every element individually parenthesized and joined
by `" AND "`. -/
theorem c6_build_clause_order (st : Select) :
    st.build =
      str "SELECT " ++ (st.columns ++ (str " FROM " ++ (st.table
        ++ ((if st.cond.isEmpty then [] else str " WHERE " ++ format_cond st.cond)
        ++ ((if st.group_by.isEmpty then [] else str " GROUP BY " ++ st.group_by)
        ++ ((if st.having.isEmpty then [] else str " HAVING " ++ format_cond st.having)
        ++ ((if st.order_by.isEmpty then [] else str " ORDER BY " ++ st.order_by)
        ++ (match st.limit, st.offset with
            | none, _ => []
            | some l, none => str " LIMIT " ++ natDec l
            | some l, some o =>
              str " LIMIT " ++ (natDec l ++ (str " OFFSET " ++ natDec o)))))))))) ∧
    format_cond ([] : List (List Char)) = [] ∧
    (∀ c cs, format_cond (c :: cs) =
      ('(' :: (c ++ [')'])) ++
        (if cs.isEmpty then [] else str " AND " ++ format_cond cs)) := by
  refine ⟨?_, rfl, ?_⟩
  · obtain ⟨cols, tab, cond, gb, hv, ob, lim, off⟩ := st
    simp only [Select.build]
    cases lim with
    | none => split_ifs <;> simp [List.append_assoc]
    | some l =>
      cases off with
      | none => split_ifs <;> simp [List.append_assoc]
      | some o => split_ifs <;> simp [List.append_assoc]
  · intro c cs
    cases cs with
    | nil => simp [format_cond, intercalate_cons]
    | cons y t => simp [format_cond, intercalate_cons]

/-- C5: the LIMIT text is rendered exactly when a limit is set, the OFFSET
text exactly when a limit and an offset are both set; with no limit the
rendered statement is identical to the one with both pagination fields
cleared (the stored offset is retained by `set_limit_offset` but suppressed
at render time). -/
theorem c5_limit_offset_rendering (st : Select) (l o : Nat) :
    (st.limit = none → st.build = st.clearPagination.build) ∧
    (st.limit = some l → st.offset = none →
      st.build = st.clearPagination.build ++ (str " LIMIT " ++ natDec l)) ∧
    (st.limit = some l → st.offset = some o →
      st.build = st.clearPagination.build ++
        (str " LIMIT " ++ (natDec l ++ (str " OFFSET " ++ natDec o)))) ∧
    (st.set_limit_offset o).offset = some o ∧
    (st.set_limit_offset o).limit = st.limit := by
  obtain ⟨cols, tab, cond, gb, hv, ob, lim, off⟩ := st
  refine ⟨?_, ?_, ?_, rfl, rfl⟩
  · intro h; subst h; rfl
  · intro h1 h2; subst h1; subst h2; rfl
  · intro h1 h2; subst h1; subst h2
    simp only [Select.build, Select.clearPagination]
    split_ifs <;> simp [List.append_assoc]

theorem c5_limit_offset_rendering_witness :
    Select.build (Select.mk (str "c") (str "T") [] [] [] [] none (some 5)) =
      Select.build (Select.clearPagination
        (Select.mk (str "c") (str "T") [] [] [] [] none (some 5))) ∧
    Select.build (Select.mk (str "c") (str "T") [] [] [] [] (some 10) (some 5)) =
      str "SELECT c FROM T LIMIT 10 OFFSET 5" :=
  ⟨(c5_limit_offset_rendering
      (Select.mk (str "c") (str "T") [] [] [] [] none (some 5)) 0 0).1 rfl,
   by
    have := (c5_limit_offset_rendering
      (Select.mk (str "c") (str "T") [] [] [] [] (some 10) (some 5)) 10 5).2.2.1
        rfl rfl
    rw [this]
    decide⟩

theorem hexDigitVal_hexDigitChar : ∀ m, m < 16 → hexDigitVal (hexDigitChar m) = some m := by
  decide

theorem hexDigitChar_ne_rbrace : ∀ m, m < 16 → ¬(hexDigitChar m = Char.ofNat 125) := by
  decide

theorem readHex_natHexAux :
    ∀ (fuel n : Nat), n < fuel → ∀ (a : Nat) (t : List Char),
      readHex (natHexAux fuel n ++ t) a =
        readHex t (a * 16 ^ (natHexAux fuel n).length + n) := by
  intro fuel
  induction fuel with
  | zero => intro n h; omega
  | succ fuel ih =>
    intro n h a t
    by_cases h16 : n < 16
    · simp only [natHexAux, if_pos h16]
      have hne := hexDigitChar_ne_rbrace n h16
      have hval := hexDigitVal_hexDigitChar n h16
      simp [readHex, hne, hval]
      congr 1
      ring
    · simp only [natHexAux, if_neg h16]
      rw [List.append_assoc]
      rw [ih (n / 16) (by omega)]
      have hmod : n % 16 < 16 := Nat.mod_lt _ (by omega)
      have hne := hexDigitChar_ne_rbrace (n % 16) hmod
      have hval := hexDigitVal_hexDigitChar (n % 16) hmod
      simp [readHex, hne, hval]
      congr 1
      obtain ⟨q, r, hqr, hrlt⟩ : ∃ q r, n = 16 * q + r ∧ r < 16 :=
        ⟨n / 16, n % 16, (Nat.div_add_mod n 16).symm, hmod⟩
      have hq : n / 16 = q := by omega
      have hr : n % 16 = r := by omega
      rw [hq, hr, hqr, pow_succ]
      ring

theorem readHex_natHex (n : Nat) (t : List Char) :
    readHex (natHex n ++ (Char.ofNat 125 :: t)) 0 = some (n, t) := by
  rw [natHex, readHex_natHexAux (n + 1) n (Nat.lt_succ_self n)]
  simp [readHex]

theorem parseBody_step {c d : Char} {rest rest2 s2 t2 : List Char}
    (hne : ¬c = '"') (hstep : unescapeStep (c :: rest) = some (d, rest2))
    (hrec : parseBody rest2 = some (s2, t2)) :
    parseBody (c :: rest) = some (d :: s2, t2) := by
  rw [parseBody, if_neg hne]
  split
  · next d2 r2 heq =>
    rw [hstep] at heq
    simp only [Option.some_inj, Prod.mk.injEq] at heq
    obtain ⟨hd, hr⟩ := heq
    subst hd
    subst hr
    rw [hrec]
  · next heq =>
    rw [hstep] at heq
    simp at heq

theorem parseBody_escape (plain : Char → Bool) :
    ∀ (s tail : List Char),
      parseBody (s.flatMap (escDebugChar plain) ++ ('"' :: tail)) = some (s, tail) := by
  intro s
  induction s with
  | nil => intro tail; simp [parseBody]
  | cons c s ih =>
    intro tail
    simp only [List.flatMap_cons, List.append_assoc]
    by_cases h0 : c = Char.ofNat 0
    · subst h0; simp [escDebugChar, parseBody, unescapeStep, ih]
    · by_cases ht : c = '\t'
      · subst ht; simp [escDebugChar, parseBody, unescapeStep, ih]
      · by_cases hcr : c = '\r'
        · subst hcr; simp [escDebugChar, parseBody, unescapeStep, ih]
        · by_cases hnl : c = '\n'
          · subst hnl; simp [escDebugChar, parseBody, unescapeStep, ih]
          · by_cases hbs : c = '\\'
            · subst hbs; simp [escDebugChar, parseBody, unescapeStep, ih]
            · by_cases hdq : c = '"'
              · subst hdq; simp [escDebugChar, parseBody, unescapeStep, ih]
              · by_cases hp : plain c
                · have hesc : escDebugChar plain c = [c] := by
                    simp [escDebugChar, h0, ht, hcr, hnl, hbs, hdq, hp]
                  rw [hesc]
                  simp only [List.singleton_append]
                  exact parseBody_step hdq (by simp [unescapeStep, hbs]) (ih tail)
                · have hesc : escDebugChar plain c =
                      '\\' :: 'u' :: Char.ofNat 123 ::
                        (natHex c.toNat ++ [Char.ofNat 125]) := by
                    simp [escDebugChar, h0, ht, hcr, hnl, hbs, hdq, hp]
                  rw [hesc]
                  simp only [List.cons_append, List.append_assoc, List.singleton_append]
                  exact parseBody_step (by decide)
                    (by simp [unescapeStep, readHex_natHex, Char.ofNat_toNat])
                    (ih tail)

/-- C8: the Value Codec output for a string is a quoted literal in which
every embedded delimiter or special character is escaped, and a parser of
that quoted-literal form decodes it back to exactly the original string with
no input left over — for every string and every choice of the printability
predicate the escaper consults. -/
theorem c8_string_literal_roundtrip (plain : Char → Bool) (s : List Char) :
    parseLiteral (stringToSql plain s) = some (s, []) := by
  simp only [stringToSql, fmtDebugStr, parseLiteral, if_pos]
  simpa using parseBody_escape plain s []

instance (d : RDate) : Decidable d.valid := by
  unfold RDate.valid
  infer_instance

instance (t : RTime) : Decidable t.valid := by
  unfold RTime.valid
  infer_instance

theorem digitChar_isDigit : ∀ n, n < 10 → (digitChar n).isDigit = true := by
  decide

theorem natDecAux_digits :
    ∀ (fuel n : Nat), n < fuel → ∀ c ∈ natDecAux fuel n, c.isDigit = true := by
  intro fuel
  induction fuel with
  | zero => intro n h; omega
  | succ fuel ih =>
    intro n h c hc
    by_cases h10 : n < 10
    · simp [natDecAux, h10] at hc
      subst hc
      exact digitChar_isDigit n h10
    · simp only [natDecAux, if_neg h10, List.mem_append, List.mem_singleton] at hc
      rcases hc with hc | hc
      · exact ih (n / 10) (by omega) c hc
      · subst hc
        exact digitChar_isDigit (n % 10) (Nat.mod_lt _ (by omega))

theorem natDecAux_length :
    ∀ (fuel n k : Nat), n < fuel → n < 10 ^ k → 1 ≤ k →
      (natDecAux fuel n).length ≤ k := by
  intro fuel
  induction fuel with
  | zero => intro n k h; omega
  | succ fuel ih =>
    intro n k h hnk hk
    by_cases h10 : n < 10
    · simp [natDecAux, h10]
      omega
    · simp only [natDecAux, if_neg h10, List.length_append, List.length_singleton]
      obtain ⟨k2, rfl⟩ : ∃ k2, k = k2 + 1 := ⟨k - 1, by omega⟩
      have hk2 : 1 ≤ k2 := by
        by_contra hcon
        have hz : k2 = 0 := by omega
        subst hz
        have : n < 10 := by simpa using hnk
        omega
      have hdiv : n / 10 < 10 ^ k2 := by
        rw [pow_succ] at hnk
        omega
      have := ih (n / 10) k2 (by omega) hdiv hk2
      omega

theorem exists_two (l : List Char) (h : l.length = 2) : ∃ a b, l = [a, b] := by
  match l with
  | [a, b] => exact ⟨a, b, rfl⟩
  | [] => simp at h
  | [a] => simp at h
  | a :: b :: c :: t => simp at h

theorem exists_four (l : List Char) (h : l.length = 4) :
    ∃ a b c d, l = [a, b, c, d] := by
  match l with
  | [a, b, c, d] => exact ⟨a, b, c, d, rfl⟩
  | [] => simp at h
  | [a] => simp at h
  | [a, b] => simp at h
  | [a, b, c] => simp at h
  | a :: b :: c :: d :: e :: t => simp at h

theorem padZeros_spec (w : Nat) (l : List Char) (hw : l.length ≤ w)
    (hd : ∀ c ∈ l, c.isDigit = true) :
    (padZeros w l).length = w ∧ ∀ c ∈ padZeros w l, c.isDigit = true := by
  constructor
  · simp [padZeros]
    omega
  · intro c hc
    simp only [padZeros, List.mem_append] at hc
    rcases hc with hc | hc
    · rw [List.eq_of_mem_replicate hc]
      decide
    · exact hd c hc

theorem fmtN02_spec (n : Nat) (h : n < 100) :
    ∃ a b, fmtN02 n = [a, b] ∧ a.isDigit = true ∧ b.isDigit = true := by
  have hlen : (natDec n).length ≤ 2 :=
    natDecAux_length (n + 1) n 2 (Nat.lt_succ_self n) (by norm_num; omega) (by norm_num)
  have hdig : ∀ c ∈ natDec n, c.isDigit = true :=
    natDecAux_digits (n + 1) n (Nat.lt_succ_self n)
  have hp := padZeros_spec 2 (natDec n) hlen hdig
  obtain ⟨a, b, he⟩ := exists_two _ hp.1
  refine ⟨a, b, he, ?_, ?_⟩
  · exact hp.2 a (by rw [he]; simp)
  · exact hp.2 b (by rw [he]; simp)

theorem fmtI04_nonneg_spec (y : Int) (h0 : 0 ≤ y) (h1 : y ≤ 9999) :
    ∃ a b c d, fmtI04 y = [a, b, c, d] ∧ a.isDigit = true ∧ b.isDigit = true ∧
      c.isDigit = true ∧ d.isDigit = true := by
  have hna : y.natAbs < 10 ^ 4 := by
    have : (10 : Nat) ^ 4 = 10000 := by norm_num
    omega
  have hlen : (natDec y.natAbs).length ≤ 4 :=
    natDecAux_length (y.natAbs + 1) y.natAbs 4 (Nat.lt_succ_self _) hna (by norm_num)
  have hdig : ∀ c ∈ natDec y.natAbs, c.isDigit = true :=
    natDecAux_digits (y.natAbs + 1) y.natAbs (Nat.lt_succ_self _)
  have hp := padZeros_spec 4 (natDec y.natAbs) hlen hdig
  obtain ⟨a, b, c, d, he⟩ := exists_four _ hp.1
  have hfmt : fmtI04 y = padZeros 4 (natDec y.natAbs) := by
    rw [fmtI04, if_neg (by omega)]
  refine ⟨a, b, c, d, by rw [hfmt, he], ?_, ?_, ?_, ?_⟩
  · exact hp.2 a (by rw [he]; simp)
  · exact hp.2 b (by rw [he]; simp)
  · exact hp.2 c (by rw [he]; simp)
  · exact hp.2 d (by rw [he]; simp)

/-- C9 counterexample: `time::Date` represents negative years (down to
-9999), and Rust's sign-aware zero padding renders year -5 as `-005`, so the
rendered literal `"-005-01-01"` does not have a 4-digit year field — the
claim's layout fails on a representable date value. -/
theorem c9_negative_year_breaks_layout :
    (RDate.mk (-5) 1 1).valid ∧
    (RDate.mk (-5) 1 1).to_sql = str "\"-005-01-01\"" ∧
    isClaimedDateLit (RDate.mk (-5) 1 1).to_sql = false := by
  refine ⟨by decide, ?_, ?_⟩ <;> decide

/-- C9 (amended): for every date with a non-negative year, `to_sql` renders
the quoted zero-padded `YYYY-MM-DD` layout; every time renders `HH:MM:SS`;
every timestamp with a non-negative year renders `YYYY-MM-DDTHH:MM:SS` — a
negative year instead renders with a leading minus sign padded to overall
width four. -/
theorem c9_datetime_formats (d : RDate) (t : RTime) (ts : RTimestamp) :
    (d.valid → 0 ≤ d.year → isClaimedDateLit d.to_sql = true) ∧
    (t.valid → isClaimedTimeLit t.to_sql = true) ∧
    (ts.date.valid → ts.time.valid → 0 ≤ ts.date.year →
      isClaimedTimestampLit ts.to_sql = true) := by
  refine ⟨?_, ?_, ?_⟩
  · intro hv hy
    obtain ⟨hv1, hv2, hv3, hv4, hv5, hv6⟩ := hv
    obtain ⟨a, b, c, d4, hY, ha, hb, hc, hd4⟩ := fmtI04_nonneg_spec d.year hy hv2
    obtain ⟨m1, m2, hM, hm1, hm2⟩ := fmtN02_spec d.month (by omega)
    obtain ⟨e1, e2, hD, he1, he2⟩ := fmtN02_spec d.day (by omega)
    rw [RDate.to_sql, hY, hM, hD]
    simp only [List.cons_append, List.nil_append]
    simp [isClaimedDateLit, ha, hb, hc, hd4, hm1, hm2, he1, he2]
  · intro hv
    obtain ⟨hv1, hv2, hv3⟩ := hv
    obtain ⟨a1, a2, hH, ha1, ha2⟩ := fmtN02_spec t.hour (by omega)
    obtain ⟨b1, b2, hM, hb1, hb2⟩ := fmtN02_spec t.minute (by omega)
    obtain ⟨c1, c2, hS, hc1, hc2⟩ := fmtN02_spec t.second (by omega)
    rw [RTime.to_sql, hH, hM, hS]
    simp only [List.cons_append, List.nil_append]
    simp [isClaimedTimeLit, ha1, ha2, hb1, hb2, hc1, hc2]
  · intro hvd hvt hy
    obtain ⟨hv1, hv2, hv3, hv4, hv5, hv6⟩ := hvd
    obtain ⟨hw1, hw2, hw3⟩ := hvt
    obtain ⟨a, b, c, d4, hY, ha, hb, hc, hd4⟩ :=
      fmtI04_nonneg_spec ts.date.year hy hv2
    obtain ⟨m1, m2, hM, hm1, hm2⟩ := fmtN02_spec ts.date.month (by omega)
    obtain ⟨e1, e2, hD, he1, he2⟩ := fmtN02_spec ts.date.day (by omega)
    obtain ⟨f1, f2, hH, hf1, hf2⟩ := fmtN02_spec ts.time.hour (by omega)
    obtain ⟨g1, g2, hMi, hg1, hg2⟩ := fmtN02_spec ts.time.minute (by omega)
    obtain ⟨i1, i2, hS, hi1, hi2⟩ := fmtN02_spec ts.time.second (by omega)
    rw [RTimestamp.to_sql, hY, hM, hD, hH, hMi, hS]
    simp only [List.cons_append, List.nil_append]
    simp [isClaimedTimestampLit, ha, hb, hc, hd4, hm1, hm2, he1, he2,
      hf1, hf2, hg1, hg2, hi1, hi2]

theorem c9_datetime_formats_witness :
    isClaimedDateLit (RDate.mk 2024 7 9).to_sql = true ∧
    isClaimedTimeLit (RTime.mk 1 2 3).to_sql = true ∧
    isClaimedTimestampLit
      (RTimestamp.mk (RDate.mk 2024 7 9) (RTime.mk 1 2 3)).to_sql = true :=
  ⟨(c9_datetime_formats (RDate.mk 2024 7 9) (RTime.mk 1 2 3)
      (RTimestamp.mk (RDate.mk 2024 7 9) (RTime.mk 1 2 3))).1
        (by decide) (by decide),
   (c9_datetime_formats (RDate.mk 2024 7 9) (RTime.mk 1 2 3)
      (RTimestamp.mk (RDate.mk 2024 7 9) (RTime.mk 1 2 3))).2.1 (by decide),
   (c9_datetime_formats (RDate.mk 2024 7 9) (RTime.mk 1 2 3)
      (RTimestamp.mk (RDate.mk 2024 7 9) (RTime.mk 1 2 3))).2.2
        (by decide) (by decide) (by decide)⟩

theorem column_index_from_spec :
    ∀ (cols : List SqlColumn) (n : List Char) (s i : Nat),
      column_index_from cols n s = some i →
      s ≤ i ∧ ∃ c, cols.get? (i - s) = some c ∧ c.name = n ∧
        ∀ j, j < i - s → ∀ c2, cols.get? j = some c2 → ¬(c2.name = n) := by
  intro cols
  induction cols with
  | nil => intro n s i h; simp [column_index_from] at h
  | cons c rest ih =>
    intro n s i h
    simp only [column_index_from] at h
    by_cases hc : c.name = n
    · rw [if_pos hc] at h
      simp only [Option.some_inj] at h
      subst h
      refine ⟨Nat.le_refl s, c, ?_, hc, ?_⟩
      · simp
      · intro j hj
        omega
    · rw [if_neg hc] at h
      obtain ⟨hs, c2, hget, hname, hmin⟩ := ih n (s + 1) i h
      refine ⟨by omega, c2, ?_, hname, ?_⟩
      · have hi : i - s = (i - (s + 1)) + 1 := by omega
        rw [hi]
        simpa using hget
      · intro j hj c3 hc3
        cases j with
        | zero =>
          simp only [List.get?_cons_zero, Option.some_inj] at hc3
          rw [← hc3]
          exact hc
        | succ j2 =>
          refine hmin j2 (by omega) c3 ?_
          simpa using hc3

theorem column_index_from_isSome :
    ∀ (cols : List SqlColumn) (n : List Char) (s : Nat),
      (column_index_from cols n s).isSome = has_column cols n := by
  intro cols
  induction cols with
  | nil => intro n s; rfl
  | cons c rest ih =>
    intro n s
    by_cases hc : c.name = n
    · rw [has_column, List.find?_cons_of_pos _ (by simp [hc])]
      simp [column_index_from, hc]
    · rw [has_column, List.find?_cons_of_neg _ (by simp [hc])]
      rw [column_index_from, if_neg hc]
      simpa [has_column] using ih n (s + 1)

/-- C10: `has_column` succeeds exactly when `column_index` returns an index;
that index points at the first column whose trimmed `name()` equals the
argument, and `column_name_at` at it returns that same name;
`column_name_at` returns `none` exactly on out-of-range indices (it is total
and never panics). -/
theorem c10_column_lookups (cols : List SqlColumn) (n : List Char) :
    (has_column cols n = true ↔ ∃ i, column_index cols n = some i) ∧
    (∀ i, column_index cols n = some i →
      ∃ c, cols.get? i = some c ∧ c.name = n ∧
        (∀ j, j < i → ∀ c2, cols.get? j = some c2 → ¬(c2.name = n)) ∧
        column_name_at cols i = some n) ∧
    (∀ j, column_name_at cols j = none ↔ cols.length ≤ j) := by
  refine ⟨?_, ?_, ?_⟩
  · rw [← column_index_from_isSome cols n 0]
    exact Option.isSome_iff_exists
  · intro i hi
    obtain ⟨-, c, hget, hname, hmin⟩ :=
      column_index_from_spec cols n 0 i (by simpa [column_index] using hi)
    simp only [Nat.sub_zero] at hget hmin
    refine ⟨c, hget, hname, hmin, ?_⟩
    rw [column_name_at, hget]
    simp [hname]
  · intro j
    simp [column_name_at, List.get?_eq_none]

theorem c10_column_lookups_witness :
    (∃ c, [SqlColumn.mk (str "id") (str "User") true,
           SqlColumn.mk (str "nm") (str "User") false].get? 1 = some c ∧
      c.name = str "nm" ∧
      (∀ j, j < 1 → ∀ c2,
        [SqlColumn.mk (str "id") (str "User") true,
         SqlColumn.mk (str "nm") (str "User") false].get? j = some c2 →
          ¬(c2.name = str "nm")) ∧
      column_name_at [SqlColumn.mk (str "id") (str "User") true,
        SqlColumn.mk (str "nm") (str "User") false] 1 = some (str "nm")) ∧
    (column_name_at [SqlColumn.mk (str "id") (str "User") true,
        SqlColumn.mk (str "nm") (str "User") false] 5 = none ↔
      [SqlColumn.mk (str "id") (str "User") true,
       SqlColumn.mk (str "nm") (str "User") false].length ≤ 5) :=
  ⟨(c10_column_lookups [SqlColumn.mk (str "id") (str "User") true,
      SqlColumn.mk (str "nm") (str "User") false] (str "nm")).2.1 1 (by decide),
   (c10_column_lookups [SqlColumn.mk (str "id") (str "User") true,
      SqlColumn.mk (str "nm") (str "User") false] (str "nm")).2.2 5⟩

end HumbleOrm
